import Mathlib

/-!
# Verification of the AI Wargame rules and decision engine

Shallow embedding of `ai_wargame_skeleton.py`. Python integers are modelled
as `Int` (clamping is explicit where the source clamps), optional values as
`Option`, and the dim×dim nested-list board as a total map from coordinates:
the source accesses the board only through `Game.get` / `Game.set`, which
bound-check the coordinate exactly as the Python methods do, so cells outside
the board are never read or written. Text output (prints, file writer) has no
effect on the game state and is omitted; the human-readable message returned
by `perform_move` is kept.
-/

namespace Wargame

/-- Every unit type (`UnitType` enum in the source). -/
inductive UnitType where
  | AI
  | Tech
  | Virus
  | Program
  | Firewall
deriving DecidableEq, Repr

/-- The 2 players (`Player` enum in the source). -/
inductive Player where
  | Attacker
  | Defender
deriving DecidableEq, Repr

/-- `Player.next`: the next (other) player. -/
def Player.next : Player → Player
  | .Attacker => .Defender
  | .Defender => .Attacker

/-- Game modes (`GameType` enum in the source). -/
inductive GameType where
  | AttackerVsDefender
  | AttackerVsComp
  | CompVsDefender
  | CompVsComp
deriving DecidableEq, Repr

/-- Index of a unit type in the damage/repair tables (`UnitType` constant values). -/
def UnitType.value : UnitType → Nat
  | .AI => 0
  | .Tech => 1
  | .Virus => 2
  | .Program => 3
  | .Firewall => 4

/-- `Unit.damage_table` class variable: rows indexed by actor type, columns by target. -/
def damage_table : List (List Int) :=
  [[3, 3, 3, 3, 1],
   [1, 1, 6, 1, 1],
   [9, 6, 1, 6, 1],
   [3, 3, 3, 3, 1],
   [1, 1, 1, 1, 1]]

/-- `Unit.repair_table` class variable. -/
def repair_table : List (List Int) :=
  [[0, 1, 1, 0, 0],
   [3, 0, 0, 3, 3],
   [0, 0, 0, 0, 0],
   [0, 0, 0, 0, 0],
   [0, 0, 0, 0, 0]]

/-- Row `i`, column `j` of a 5×5 table (the Python indexing `table[i][j]`;
indices produced by `UnitType.value` are always in range). -/
def tableLookup (t : List (List Int)) (i j : Nat) : Int :=
  ((t.getD i []).getD j 0)

/-- The `Unit` dataclass: player, type, health. (Named `Unit'` because `Unit`
is taken by Lean's core; fields and defaults are the source's.) -/
structure Unit' where
  player : Player := .Attacker
  type : UnitType := .Program
  health : Int := 9
deriving DecidableEq, Repr

/-- `Unit.is_alive`. -/
def Unit'.is_alive (u : Unit') : Bool := u.health > 0

/-- `Unit.mod_health`: add the delta, then clamp into [0, 9]. -/
def Unit'.mod_health (u : Unit') (health_delta : Int) : Unit' :=
  let h := u.health + health_delta
  { u with health := if h < 0 then 0 else if h > 9 then 9 else h }

/-- `Unit.damage_amount`: table value, capped so the target's health cannot go
below zero. -/
def Unit'.damage_amount (u target : Unit') : Int :=
  let amount := tableLookup damage_table u.type.value target.type.value
  if target.health - amount < 0 then target.health else amount

/-- `Unit.repair_amount`: table value, capped so the target's health cannot
exceed 9. -/
def Unit'.repair_amount (u target : Unit') : Int :=
  let amount := tableLookup repair_table u.type.value target.type.value
  if target.health + amount > 9 then 9 - target.health else amount

/-- The `Coord` dataclass: row and col are Python ints. -/
structure Coord where
  row : Int := 0
  col : Int := 0
deriving DecidableEq, Repr

/-- `Coord.iter_adjacent`: the four orthogonal neighbours in the source's
fixed order — up, left, down, right. -/
def Coord.iter_adjacent (c : Coord) : List Coord :=
  [⟨c.row - 1, c.col⟩, ⟨c.row, c.col - 1⟩, ⟨c.row + 1, c.col⟩, ⟨c.row, c.col + 1⟩]

/-- The row-major sequence of the 8 cells surrounding `c` (the two nested
`range` loops of the self-destruct block, with the centre cell skipped). -/
def Coord.surrounding (c : Coord) : List Coord :=
  [⟨c.row - 1, c.col - 1⟩, ⟨c.row - 1, c.col⟩, ⟨c.row - 1, c.col + 1⟩,
   ⟨c.row, c.col - 1⟩, ⟨c.row, c.col + 1⟩,
   ⟨c.row + 1, c.col - 1⟩, ⟨c.row + 1, c.col⟩, ⟨c.row + 1, c.col + 1⟩]

/-- Python `str.find` for a single character: index of the first occurrence,
or -1 when absent. -/
def pyFind : List Char → Char → Int
  | [], _ => -1
  | a :: rest, c =>
      if a = c then 0
      else
        let r := pyFind rest c
        if r = -1 then -1 else r + 1

/-- The row alphabet used by the source. -/
def rowChars : List Char := "ABCDEFGHIJKLMNOPQRSTUVWXYZ".toList

/-- The column hex-digit alphabet used by the source. -/
def colChars : List Char := "0123456789abcdef".toList

/-- Python `str.strip()`: drop whitespace from both ends. -/
def pyStrip (s : List Char) : List Char :=
  ((s.dropWhile Char.isWhitespace).reverse.dropWhile Char.isWhitespace).reverse

/-- The separator characters removed before parsing (the `" ,.:;-_"` loop of
`replace` calls, which is equivalent to filtering them all out). -/
def separators : List Char := [' ', ',', '.', ':', ';', '-', '_']

/-- Strip then remove every separator character. -/
def cleanInput (s : List Char) : List Char :=
  (pyStrip s).filter (fun c => !(separators.contains c))

/-- `Coord.from_string`: after cleaning, a 2-character input is returned as a
coordinate via `find` (which yields -1 for characters outside the alphabets);
any other length yields `none`. -/
def Coord.from_string (s : List Char) : Option Coord :=
  match cleanInput s with
  | [c0, c1] => some ⟨pyFind rowChars c0.toUpper, pyFind colChars c1.toLower⟩
  | _ => none

/-- The `CoordPair` dataclass. -/
structure CoordPair where
  src : Coord := {}
  dst : Coord := {}
deriving DecidableEq, Repr

/-- Python `range a b` as a list of `Int`. -/
def intRange (a b : Int) : List Int :=
  (List.range (b - a).toNat).map (fun i => a + (i : Int))

/-- `CoordPair.iter_rectangle`: all cells of the rectangle, row-major,
inclusive of both corners. -/
def CoordPair.iter_rectangle (p : CoordPair) : List Coord :=
  (intRange p.src.row (p.dst.row + 1)).flatMap
    (fun r => (intRange p.src.col (p.dst.col + 1)).map (fun c => Coord.mk r c))

/-- `CoordPair.from_dim`. -/
def CoordPair.from_dim (dim : Int) : CoordPair :=
  ⟨⟨0, 0⟩, ⟨dim - 1, dim - 1⟩⟩

/-- `CoordPair.from_string`: after cleaning, a 4-character input is split into
two coordinates via `find`; any other length yields `none`. -/
def CoordPair.from_string (s : List Char) : Option CoordPair :=
  match cleanInput s with
  | [c0, c1, c2, c3] =>
      some ⟨⟨pyFind rowChars c0.toUpper, pyFind colChars c1.toLower⟩,
            ⟨pyFind rowChars c2.toUpper, pyFind colChars c3.toLower⟩⟩
  | _ => none

/-- The `Options` dataclass. `max_time` (a float) and `broker` (an HTTP
endpoint) never influence the operations verified here and are omitted. -/
structure Options where
  dim : Int := 5
  max_depth : Option Int := some 4
  min_depth : Option Int := some 2
  game_type : GameType := .AttackerVsDefender
  alpha_beta : Bool := true
  max_turns : Option Int := some 100
  randomize_moves : Bool := true
deriving Repr

/-- The `Game` dataclass. The dim×dim nested list `board` is modelled as a
total map; the source reads and writes it only through `Game.get`/`Game.set`,
which bound-check exactly as below. `stats` (floats, search bookkeeping) and
`fileWriter` (I/O) do not affect the game state and are omitted. -/
structure Game where
  board : Coord → Option Unit'
  next_player : Player := .Attacker
  turns_played : Int := 1
  options : Options := {}
  attacker_has_ai : Bool := true
  defender_has_ai : Bool := true

/-- `Game.is_valid_coord`. -/
def Game.is_valid_coord (g : Game) (coord : Coord) : Bool :=
  if coord.row < 0 ∨ coord.row ≥ g.options.dim ∨
     coord.col < 0 ∨ coord.col ≥ g.options.dim then false
  else true

/-- `Game.get`: contents of a board cell, `none` for an off-board coordinate. -/
def Game.get (g : Game) (coord : Coord) : Option Unit' :=
  if g.is_valid_coord coord then g.board coord else none

/-- `Game.set`: write a board cell; a no-op for an off-board coordinate. -/
def Game.set (g : Game) (coord : Coord) (u : Option Unit') : Game :=
  if g.is_valid_coord coord then
    { g with board := fun c => if c = coord then u else g.board c }
  else g

/-- `Game.remove_dead`: remove the unit at `coord` if it is dead, clearing the
owning side's AI flag when that unit is an AI. -/
def Game.remove_dead (g : Game) (coord : Coord) : Game :=
  match g.get coord with
  | some unit =>
      if !unit.is_alive then
        if unit.type = UnitType.AI then
          if unit.player = Player.Attacker then
            { g.set coord none with attacker_has_ai := false }
          else
            { g.set coord none with defender_has_ai := false }
        else g.set coord none
      else g
  | none => g

/-- `Game.mod_health`: modify the health of the unit at `coord` (the source
mutates the unit object in place, which we model by writing the modified unit
back), then remove it if dead. -/
def Game.mod_health (g : Game) (coord : Coord) (health_delta : Int) : Game :=
  match g.get coord with
  | some target => ((g.set coord (some (target.mod_health health_delta))).remove_dead coord)
  | none => g

/-- `Game.is_in_repair`: both cells occupied by units of the same owner, at
distinct coordinates, with a positive computed repair amount. (The source
compares `player.name` strings, which coincides with player equality.) -/
def Game.is_in_repair (g : Game) (coords : CoordPair) : Bool :=
  match g.get coords.src, g.get coords.dst with
  | some unit_src, some unit_dst =>
      if unit_src.player = unit_dst.player ∧ coords.src ≠ coords.dst then
        decide (unit_src.repair_amount unit_dst > 0)
      else false
  | _, _ => false

/-- `Game.is_in_Combat`: is some adjacent cell occupied by an enemy of the
unit at `src`? (The source dereferences the src unit unconditionally and would
raise on an empty src; every caller checks the cell first.) -/
def Game.is_in_Combat (g : Game) (coords : CoordPair) : Bool :=
  match g.get coords.src with
  | some unit_src =>
      coords.src.iter_adjacent.any (fun coord =>
        match g.get coord with
        | some unit_adj => decide (unit_adj.player ≠ unit_src.player)
        | none => false)
  | none => false

/-- `Game.is_legal_move`: combat lock, directional restriction for
AI/Firewall/Program, and destination-occupancy check, in the source's order.
(The source's `attacker_move` and `defender_move` lists both equal
`no_move_combat`.) -/
def Game.is_legal_move (g : Game) (coords : CoordPair) : Bool :=
  match g.get coords.src with
  | none => false
  | some unit_src =>
      let no_move_combat : List UnitType := [.AI, .Firewall, .Program]
      let adj := coords.src.iter_adjacent
      let coords_up_left := adj.take 2
      let coords_down_right := adj.drop 2
      let unit_dst := g.get coords.dst
      if g.is_in_Combat coords && decide (unit_src.type ∈ no_move_combat)
          && unit_dst.isNone then false
      else if decide (unit_src.player = Player.Attacker)
          && decide (unit_src.type ∈ no_move_combat)
          && !(decide (coords.dst ∈ coords_up_left)) then false
      else if decide (unit_src.player = Player.Defender)
          && decide (unit_src.type ∈ no_move_combat)
          && !(decide (coords.dst ∈ coords_down_right)) then false
      else
        let is_in_repair := g.is_in_repair coords
        match unit_dst with
        | some unit_dst =>
            if decide (unit_src.player = unit_dst.player) && !is_in_repair then false
            else true
        | none => true

/-- `Game.is_valid_move`: on-board coordinates, a unit of `next_player` at
src, and either a legal move or `unit_src == self.get(coords.dst)` — note the
source compares the two *units* with dataclass value equality (player, type,
health), not the two coordinates. -/
def Game.is_valid_move (g : Game) (coords : CoordPair) : Bool :=
  if !(g.is_valid_coord coords.src) || !(g.is_valid_coord coords.dst) then false
  else
    match g.get coords.src with
    | none => false
    | some unit_src =>
        if decide (unit_src.player ≠ g.next_player) then false
        else
          let is_legal := g.is_legal_move coords
          is_legal || decide (g.get coords.dst = some unit_src)

/-- `Game.perform_attack`: both damage amounts are computed from the
pre-attack healths, then both units are hurt, then each is removed if its
health is ≤ 0. The source mutates the two unit objects in place; we write each
update through the board and re-read, which also reproduces the aliasing when
`src = dst` (both Python names then refer to one object). The source
dereferences both units after the guarded block and would raise when either
cell is empty; callers only invoke it with two occupied cells. -/
def Game.perform_attack (g : Game) (src dst : Coord) : Game :=
  match g.get src, g.get dst with
  | some attacker, some defender =>
      let damage_attacker_to_defender := attacker.damage_amount defender
      let damage_defender_to_attacker := defender.damage_amount attacker
      let g1 := g.set src (some (attacker.mod_health (-damage_defender_to_attacker)))
      let g2 :=
        match g1.get dst with
        | some d1 => g1.set dst (some (d1.mod_health (-damage_attacker_to_defender)))
        | none => g1
      let g3 :=
        match g2.get src with
        | some a2 => if a2.health ≤ 0 then g2.set src none else g2
        | none => g2
      match g3.get dst with
      | some d2 => if d2.health ≤ 0 then g3.set dst none else g3
      | none => g3
  | _, _ => g

/-- One iteration of the self-destruct splash loop: an occupied surrounding
cell takes 2 damage (with removal on death via `Game.mod_health`); empty —
including off-board — cells are skipped. -/
def Game.splashStep (g : Game) (target_coord : Coord) : Game :=
  match g.get target_coord with
  | some _ => g.mod_health target_coord (-2)
  | none => g

/-- The nested row/col loop of the self-destruct block, over the 8 cells
surrounding `src` in row-major order. -/
def Game.splashAll (g : Game) (src : Coord) : Game :=
  src.surrounding.foldl Game.splashStep g

/-- `Game.perform_move`: validate, then apply exactly one of repair / attack /
self-destruct+relocation, returning the success flag and outcome text. The
repair branch dereferences both units, which `is_in_repair` guarantees exist. -/
def Game.perform_move (g : Game) (coords : CoordPair) : Game × Bool × String :=
  if g.is_valid_move coords then
    let unit_src := g.get coords.src
    let unit_dst := g.get coords.dst
    if g.is_in_repair coords then
      match unit_src, unit_dst with
      | some us, some ud =>
          let health_amount := us.repair_amount ud
          if health_amount = 0 ∨ ud.health = 9 then (g, false, "")
          else if health_amount > 0 then
            (g.mod_health coords.dst health_amount, true, "Done\n")
          else (g, true, "Done\n")
      | _, _ => (g, false, "")
    else
      match unit_src with
      | none => (g, false, "Invalid source unit")
      | some us =>
          let attack_happens : Bool :=
            match unit_dst with
            | some ud =>
                (decide (us.player = Player.Attacker) && decide (ud.player = Player.Defender))
                || (decide (us.player = Player.Defender) && decide (ud.player = Player.Attacker))
            | none => false
          if attack_happens then
            (g.perform_attack coords.src coords.dst, true,
              "Attacked the opponent, the health levels have been adjusted!")
          else
            let g1 :=
              if coords.dst = coords.src then
                (g.mod_health coords.dst (-9)).splashAll coords.src
              else g
            let g2 := (g1.set coords.dst (g1.get coords.src)).set coords.src none
            (g2, true, "Done")
  else (g, false, "invalid move")

/-- `Game.computer_perform_move`: the silent variant used by the search; the
same branches as `Game.perform_move` with all text production removed. -/
def Game.computer_perform_move (g : Game) (coords : CoordPair) : Game × Bool :=
  if g.is_valid_move coords then
    let unit_src := g.get coords.src
    let unit_dst := g.get coords.dst
    if g.is_in_repair coords then
      match unit_src, unit_dst with
      | some us, some ud =>
          let health_amount := us.repair_amount ud
          if health_amount = 0 ∨ ud.health = 9 then (g, false)
          else if health_amount > 0 then
            (g.mod_health coords.dst health_amount, true)
          else (g, true)
      | _, _ => (g, false)
    else
      match unit_src with
      | none => (g, false)
      | some us =>
          let attack_happens : Bool :=
            match unit_dst with
            | some ud =>
                (decide (us.player = Player.Attacker) && decide (ud.player = Player.Defender))
                || (decide (us.player = Player.Defender) && decide (ud.player = Player.Attacker))
            | none => false
          if attack_happens then
            (g.perform_attack coords.src coords.dst, true)
          else
            let g1 :=
              if coords.dst = coords.src then
                (g.mod_health coords.dst (-9)).splashAll coords.src
              else g
            let g2 := (g1.set coords.dst (g1.get coords.src)).set coords.src none
            (g2, true)
  else (g, false)

/-- `Game.next_turn`: hand the turn to the other player. -/
def Game.next_turn (g : Game) : Game :=
  { g with next_player := g.next_player.next, turns_played := g.turns_played + 1 }

/-- `Game.has_winner`: Defender at the turn cap; otherwise decided from the
two cached AI flags. Python falls off the end of the function — an implicit
`None` — when both flags are false. -/
def Game.has_winner (g : Game) : Option Player :=
  let cap_reached : Bool :=
    match g.options.max_turns with
    | some max_turns => decide (g.turns_played ≥ max_turns)
    | none => false
  if cap_reached then some .Defender
  else if g.attacker_has_ai then
    if g.defender_has_ai then none else some .Attacker
  else if g.defender_has_ai then some .Defender
  else none

/-- `Game.player_units`: all (coordinate, unit) pairs of one player, in
row-major board order. -/
def Game.player_units (g : Game) (player : Player) : List (Coord × Unit') :=
  (CoordPair.from_dim g.options.dim).iter_rectangle.filterMap
    (fun coord =>
      match g.get coord with
      | some unit => if unit.player = player then some (coord, unit) else none
      | none => none)

/-- `Game.__post_init__`: the fixed initial placement (dim taken from the
options, `md` the last index). -/
def Game.initial (options : Options) : Game :=
  let g0 : Game := { board := fun _ => none, options := options }
  let md := options.dim - 1
  (((((((((((g0.set ⟨0, 0⟩ (some { player := .Defender, type := .AI })).set
    ⟨1, 0⟩ (some { player := .Defender, type := .Tech })).set
    ⟨0, 1⟩ (some { player := .Defender, type := .Tech })).set
    ⟨2, 0⟩ (some { player := .Defender, type := .Firewall })).set
    ⟨0, 2⟩ (some { player := .Defender, type := .Firewall })).set
    ⟨1, 1⟩ (some { player := .Defender, type := .Program })).set
    ⟨md, md⟩ (some { player := .Attacker, type := .AI })).set
    ⟨md - 1, md⟩ (some { player := .Attacker, type := .Virus })).set
    ⟨md, md - 1⟩ (some { player := .Attacker, type := .Virus })).set
    ⟨md - 2, md⟩ (some { player := .Attacker, type := .Program })).set
    ⟨md, md - 2⟩ (some { player := .Attacker, type := .Program })).set
    ⟨md - 1, md - 1⟩ (some { player := .Attacker, type := .Firewall })

/-- The game produced by `Game(options=Options())`: default options, board in
the initial placement, Attacker to move, turn counter 1, both AI flags set. -/
def game0 : Game := Game.initial {}

/-- Spec-side check: does any board cell hold a live AI of the given player?
Used to compare the board contents against the cached AI-presence flags. -/
def Game.boardHasLiveAI (g : Game) (p : Player) : Bool :=
  (CoordPair.from_dim g.options.dim).iter_rectangle.any (fun coord =>
    match g.get coord with
    | some u => decide (u.player = p) && decide (u.type = UnitType.AI) && decide (u.health > 0)
    | none => false)

/-- `MAX_HEURISTIC_SCORE` module constant. -/
def MAX_HEURISTIC_SCORE : Int := 2000000000

/-- `MIN_HEURISTIC_SCORE` module constant. -/
def MIN_HEURISTIC_SCORE : Int := -2000000000

/-- The `Node` class of the game tree: the move that produced this state
(`None` for the root), the heuristic score attached at construction time, and
the children. The `value` list of candidate moves and the depth/player labels
are not read by the search and are omitted. -/
inductive Node where
  | mk (coords : Option CoordPair) (score : Int) (children : List Node)

/-- The `coords` field. -/
def Node.coords : Node → Option CoordPair
  | .mk coords _ _ => coords

/-- The `score` field. -/
def Node.score : Node → Int
  | .mk _ score _ => score

/-- The `children` field. -/
def Node.children : Node → List Node
  | .mk _ _ children => children

mutual
/-- `Game.minimax` as written in the source. At depth 0 or a childless node
the stored score is returned. In the maximizing branch the recursive call is
made but its result is discarded: `max_eval` is updated to the child's stored
score. In the minimizing branch the comparison is against the child's stored
score while the assignment uses the recursive value. -/
def minimax (node : Node) (depth : Int) (max_player : Bool) : Int :=
  if decide (depth = 0) || node.children.isEmpty then node.score
  else if max_player then minimaxMaxLoop node.children depth MIN_HEURISTIC_SCORE
  else minimaxMinLoop node.children depth MAX_HEURISTIC_SCORE
termination_by sizeOf node
decreasing_by
  all_goals (cases node with | mk c s ch => simp [Node.children])

/-- The `for child in node.children` loop of the maximizing branch. -/
def minimaxMaxLoop (children : List Node) (depth : Int) (max_eval : Int) : Int :=
  match children with
  | [] => max_eval
  | child :: rest =>
      let child_score := child.score
      let ev := minimax child (depth - 1) false
      if child_score > max_eval then minimaxMaxLoop rest depth child_score
      else
        let _ := ev  -- `eval` is computed but never used in this branch
        minimaxMaxLoop rest depth max_eval
termination_by sizeOf children
decreasing_by
  all_goals simp
  all_goals omega

/-- The `for child in node.children` loop of the minimizing branch. -/
def minimaxMinLoop (children : List Node) (depth : Int) (min_eval : Int) : Int :=
  match children with
  | [] => min_eval
  | child :: rest =>
      let child_score := child.score
      let ev := minimax child (depth - 1) true
      if child_score < min_eval then minimaxMinLoop rest depth (min min_eval ev)
      else minimaxMinLoop rest depth min_eval
termination_by sizeOf children
decreasing_by
  all_goals simp
  all_goals omega
end

/-- `Game.optimal_move_minimax`: evaluate each root child with
`minimax(child, depth, False)`, keep those whose value is `>=` the initial
`optimal_value` (which is never reassigned, so the threshold stays
`MIN_HEURISTIC_SCORE`), take the maximum kept value, shuffle the children
attaining it and return the first with that value. `shuffle` stands for
`random.shuffle`; `none` models the `ValueError` the source raises when `max`
is applied to an empty list (and the impossible empty-shuffle case). -/
def optimal_move_minimax (root : Node) (depth : Int)
    (shuffle : List Node → List Node) : Option (Int × Option CoordPair) :=
  let pairs := root.children.map (fun child => (minimax child depth false, child))
  let kept := pairs.filter (fun p => decide (p.1 ≥ MIN_HEURISTIC_SCORE))
  match kept.map Prod.fst with
  | [] => none
  | v :: vs =>
      let max_value := vs.foldl max v
      let max_children := (kept.filter (fun p => decide (p.1 = max_value))).map Prod.snd
      match shuffle max_children with
      | [] => none
      | best_child :: _ => some (max_value, best_child.coords)

mutual
/-- Modelled from the spec: the depth-limited backing-up procedure that
alternates maximizing and minimizing over the heuristic scores already
attached to nodes at construction time — the stored score at depth 0 or a
leaf, and otherwise the max (resp. min) of the children's backed-up values. -/
def backedUpValue (node : Node) (depth : Int) (maximizing : Bool) : Int :=
  if decide (depth = 0) || node.children.isEmpty then node.score
  else if maximizing then backedUpMax node.children depth MIN_HEURISTIC_SCORE
  else backedUpMin node.children depth MAX_HEURISTIC_SCORE
termination_by sizeOf node
decreasing_by
  all_goals (cases node with | mk c s ch => simp [Node.children])

/-- Maximum of the children's backed-up values. -/
def backedUpMax (children : List Node) (depth : Int) (acc : Int) : Int :=
  match children with
  | [] => acc
  | child :: rest => backedUpMax rest depth (max acc (backedUpValue child (depth - 1) false))
termination_by sizeOf children
decreasing_by
  all_goals simp
  all_goals omega

/-- Minimum of the children's backed-up values. -/
def backedUpMin (children : List Node) (depth : Int) (acc : Int) : Int :=
  match children with
  | [] => acc
  | child :: rest => backedUpMin rest depth (min acc (backedUpValue child (depth - 1) true))
termination_by sizeOf children
decreasing_by
  all_goals simp
  all_goals omega
end

/-! ## Basic lemmas about the board accessors -/

theorem Game.get_some_valid {g : Game} {c : Coord} {u : Unit'}
    (h : g.get c = some u) : g.is_valid_coord c = true := by
  unfold Game.get at h
  by_cases hv : g.is_valid_coord c = true
  · exact hv
  · simp [hv] at h

theorem Game.get_eq_of {g g' : Game} (h1 : g'.board = g.board)
    (h2 : g'.options = g.options) (c : Coord) : g'.get c = g.get c := by
  simp only [Game.get, Game.is_valid_coord, h1, h2]

theorem Game.set_options (g : Game) (c : Coord) (u : Option Unit') :
    (g.set c u).options = g.options := by
  unfold Game.set; split <;> rfl

theorem Game.set_next_player (g : Game) (c : Coord) (u : Option Unit') :
    (g.set c u).next_player = g.next_player := by
  unfold Game.set; split <;> rfl

theorem Game.set_turns_played (g : Game) (c : Coord) (u : Option Unit') :
    (g.set c u).turns_played = g.turns_played := by
  unfold Game.set; split <;> rfl

theorem Game.is_valid_coord_of_options {g g' : Game} (h : g'.options = g.options)
    (c : Coord) : g'.is_valid_coord c = g.is_valid_coord c := by
  unfold Game.is_valid_coord; rw [h]

theorem Game.get_set_self {g : Game} {c : Coord} (u : Option Unit')
    (hv : g.is_valid_coord c = true) : (g.set c u).get c = u := by
  unfold Game.set
  rw [if_pos hv]
  unfold Game.get
  have h2 : ({ g with board := fun x => if x = c then u else g.board x } : Game).is_valid_coord c = true := hv
  rw [if_pos h2]
  simp

theorem Game.get_set_ne {g : Game} {c c' : Coord} (u : Option Unit')
    (hne : c' ≠ c) : (g.set c u).get c' = g.get c' := by
  unfold Game.set
  split
  · unfold Game.get
    have h2 : ({ g with board := fun x => if x = c then u else g.board x } : Game).is_valid_coord c' = g.is_valid_coord c' := rfl
    rw [h2]
    split
    · simp [hne]
    · rfl
  · rfl

theorem Game.remove_dead_options (g : Game) (c : Coord) :
    (g.remove_dead c).options = g.options := by
  unfold Game.remove_dead
  split
  · split
    · split
      · split
        · exact Game.set_options g c none
        · exact Game.set_options g c none
      · exact Game.set_options g c none
    · rfl
  · rfl

theorem Game.remove_dead_next_player (g : Game) (c : Coord) :
    (g.remove_dead c).next_player = g.next_player := by
  unfold Game.remove_dead
  split
  · split
    · split
      · split
        · exact Game.set_next_player g c none
        · exact Game.set_next_player g c none
      · exact Game.set_next_player g c none
    · rfl
  · rfl

theorem Game.remove_dead_turns_played (g : Game) (c : Coord) :
    (g.remove_dead c).turns_played = g.turns_played := by
  unfold Game.remove_dead
  split
  · split
    · split
      · split
        · exact Game.set_turns_played g c none
        · exact Game.set_turns_played g c none
      · exact Game.set_turns_played g c none
    · rfl
  · rfl

theorem Game.mod_health_options (g : Game) (c : Coord) (d : Int) :
    (g.mod_health c d).options = g.options := by
  unfold Game.mod_health
  split
  · rw [Game.remove_dead_options, Game.set_options]
  · rfl

theorem Game.mod_health_next_player (g : Game) (c : Coord) (d : Int) :
    (g.mod_health c d).next_player = g.next_player := by
  unfold Game.mod_health
  split
  · rw [Game.remove_dead_next_player, Game.set_next_player]
  · rfl

theorem Game.mod_health_turns_played (g : Game) (c : Coord) (d : Int) :
    (g.mod_health c d).turns_played = g.turns_played := by
  unfold Game.mod_health
  split
  · rw [Game.remove_dead_turns_played, Game.set_turns_played]
  · rfl

theorem Game.get_remove_dead_ne {g : Game} {c c' : Coord} (hne : c' ≠ c) :
    (g.remove_dead c).get c' = g.get c' := by
  have base : (g.set c none).get c' = g.get c' := Game.get_set_ne none hne
  unfold Game.remove_dead
  split
  · split
    · split
      · split
        · exact (Game.get_eq_of rfl rfl c').trans base
        · exact (Game.get_eq_of rfl rfl c').trans base
      · exact base
    · rfl
  · rfl

theorem Game.get_mod_health_ne {g : Game} {c c' : Coord} (d : Int) (hne : c' ≠ c) :
    (g.mod_health c d).get c' = g.get c' := by
  unfold Game.mod_health
  split
  · rw [Game.get_remove_dead_ne hne, Game.get_set_ne _ hne]
  · rfl

/-- The contents of cell `c` after `Game.mod_health c d`: the unit's health is
modified (with clamping) and the unit is removed when the result is dead. -/
def cellAfterMod (cell : Option Unit') (d : Int) : Option Unit' :=
  match cell with
  | none => none
  | some u =>
      if (u.mod_health d).health ≤ 0 then none else some (u.mod_health d)

theorem Game.get_mod_health_self (g : Game) (c : Coord) (d : Int) :
    (g.mod_health c d).get c = cellAfterMod (g.get c) d := by
  unfold Game.mod_health
  split
  case h_1 u hu =>
    have hv : g.is_valid_coord c = true := Game.get_some_valid hu
    have hset : (g.set c (some (u.mod_health d))).get c = some (u.mod_health d) :=
      Game.get_set_self _ hv
    have hv' : (g.set c (some (u.mod_health d))).is_valid_coord c = true := by
      rw [Game.is_valid_coord_of_options (Game.set_options g c _) c]; exact hv
    have base : ((g.set c (some (u.mod_health d))).set c none).get c = none :=
      Game.get_set_self none hv'
    unfold Game.remove_dead
    rw [hset]
    simp only [cellAfterMod, hu, Unit'.is_alive]
    by_cases hdead : (u.mod_health d).health ≤ 0
    · have hng : (!decide ((u.mod_health d).health > 0)) = true := by
        simp; omega
      rw [if_pos hng, if_pos hdead]
      split
      · split
        · exact (Game.get_eq_of rfl rfl c).trans base
        · exact (Game.get_eq_of rfl rfl c).trans base
      · exact base
    · have hng : ¬ ((!decide ((u.mod_health d).health > 0)) = true) := by
        simp; omega
      rw [if_neg hng, if_neg hdead]
      exact hset
  case h_2 h => rw [h]; rfl

/-! ## Lemmas about the self-destruct splash -/

theorem Game.splashStep_get_ne {g : Game} {a c : Coord} (hne : c ≠ a) :
    (g.splashStep a).get c = g.get c := by
  unfold Game.splashStep
  split
  · exact Game.get_mod_health_ne _ hne
  · rfl

theorem Game.splashStep_get_self (g : Game) (a : Coord) :
    (g.splashStep a).get a = cellAfterMod (g.get a) (-2) := by
  unfold Game.splashStep
  split
  case h_1 u hu => rw [Game.get_mod_health_self]
  case h_2 h => rw [h]; rfl

theorem Game.splashStep_options (g : Game) (a : Coord) :
    (g.splashStep a).options = g.options := by
  unfold Game.splashStep
  split
  · exact Game.mod_health_options g a (-2)
  · rfl

theorem Game.splashStep_next_player (g : Game) (a : Coord) :
    (g.splashStep a).next_player = g.next_player := by
  unfold Game.splashStep
  split
  · exact Game.mod_health_next_player g a (-2)
  · rfl

theorem Game.splashStep_turns_played (g : Game) (a : Coord) :
    (g.splashStep a).turns_played = g.turns_played := by
  unfold Game.splashStep
  split
  · exact Game.mod_health_turns_played g a (-2)
  · rfl

theorem foldl_splashStep_get_not_mem (L : List Coord) (g : Game) (c : Coord)
    (hc : c ∉ L) : (L.foldl Game.splashStep g).get c = g.get c := by
  induction L generalizing g with
  | nil => rfl
  | cons a rest ih =>
      simp only [List.foldl_cons]
      have h1 : c ≠ a := fun h => hc (h ▸ List.mem_cons_self a rest)
      have h2 : c ∉ rest := fun h => hc (List.mem_cons_of_mem a h)
      rw [ih (g.splashStep a) h2, Game.splashStep_get_ne h1]

theorem foldl_splashStep_get_mem (L : List Coord) :
    ∀ (g : Game) (c : Coord), c ∈ L → L.Pairwise (· ≠ ·) →
      (L.foldl Game.splashStep g).get c = cellAfterMod (g.get c) (-2) := by
  induction L with
  | nil => intro g c hc _; cases hc
  | cons a rest ih =>
      intro g c hc hp
      simp only [List.foldl_cons]
      rcases List.mem_cons.mp hc with h | h
      · subst h
        have hnotin : c ∉ rest := by
          intro hmem
          exact (List.pairwise_cons.mp hp).1 c hmem rfl
        rw [foldl_splashStep_get_not_mem rest _ c hnotin, Game.splashStep_get_self]
      · have hne : c ≠ a := by
          intro he
          subst he
          exact (List.pairwise_cons.mp hp).1 c h rfl
        rw [ih (g.splashStep a) c h (List.pairwise_cons.mp hp).2, Game.splashStep_get_ne hne]

theorem foldl_splashStep_options (L : List Coord) (g : Game) :
    (L.foldl Game.splashStep g).options = g.options := by
  induction L generalizing g with
  | nil => rfl
  | cons a rest ih =>
      simp only [List.foldl_cons]
      rw [ih, Game.splashStep_options]

theorem foldl_splashStep_next_player (L : List Coord) (g : Game) :
    (L.foldl Game.splashStep g).next_player = g.next_player := by
  induction L generalizing g with
  | nil => rfl
  | cons a rest ih =>
      simp only [List.foldl_cons]
      rw [ih, Game.splashStep_next_player]

theorem foldl_splashStep_turns_played (L : List Coord) (g : Game) :
    (L.foldl Game.splashStep g).turns_played = g.turns_played := by
  induction L generalizing g with
  | nil => rfl
  | cons a rest ih =>
      simp only [List.foldl_cons]
      rw [ih, Game.splashStep_turns_played]

theorem mem_surrounding_iff (c src : Coord) :
    c ∈ src.surrounding ↔ c ≠ src ∧ |c.row - src.row| ≤ 1 ∧ |c.col - src.col| ≤ 1 := by
  obtain ⟨r, l⟩ := c
  obtain ⟨r2, l2⟩ := src
  simp only [Coord.surrounding, List.mem_cons, List.not_mem_nil, or_false,
    Coord.mk.injEq, ne_eq, abs_le]
  constructor
  · intro h
    rcases h with h | h | h | h | h | h | h | h <;> obtain ⟨h1, h2⟩ := h <;>
      exact ⟨by omega, by omega, by omega⟩
  · intro h
    omega

theorem surrounding_pairwise (src : Coord) : src.surrounding.Pairwise (· ≠ ·) := by
  obtain ⟨r, l⟩ := src
  simp [Coord.surrounding, List.pairwise_cons, Coord.mk.injEq]
  omega

theorem Game.splashAll_get_mem {g : Game} {src c : Coord} (hc : c ∈ src.surrounding) :
    (g.splashAll src).get c = cellAfterMod (g.get c) (-2) :=
  foldl_splashStep_get_mem _ g c hc (surrounding_pairwise src)

theorem Game.splashAll_get_not_mem {g : Game} {src c : Coord} (hc : c ∉ src.surrounding) :
    (g.splashAll src).get c = g.get c :=
  foldl_splashStep_get_not_mem _ g c hc

/-! ## Claim C6 and C10: win detection -/

/-- **C6**: `has_winner` returns Defender once `turns_played` has reached the
configured turn cap, even if both AIs are alive; below the cap it returns
Attacker if only the Defender's AI is gone (flag cleared), Defender if only
the Attacker's AI is gone, and no winner while both AI flags are set. -/
theorem claim6_has_winner (g : Game) (cap : Int)
    (hcap : g.options.max_turns = some cap) :
    (g.turns_played ≥ cap → g.has_winner = some Player.Defender) ∧
    (g.turns_played < cap →
      (g.attacker_has_ai = true → g.defender_has_ai = false →
          g.has_winner = some Player.Attacker) ∧
      (g.attacker_has_ai = false → g.defender_has_ai = true →
          g.has_winner = some Player.Defender) ∧
      (g.attacker_has_ai = true → g.defender_has_ai = true → g.has_winner = none)) := by
  unfold Game.has_winner
  rw [hcap]
  constructor
  · intro h
    simp [h]
  · intro h
    have hn : ¬ (g.turns_played ≥ cap) := by omega
    refine ⟨?_, ?_, ?_⟩ <;> intro ha hd <;> simp [hn, ha, hd]

/-- Witness for C6: at the cap the Defender wins even with both AIs alive, and
on the untouched initial game (turn 1, both flags set) there is no winner. -/
theorem claim6_has_winner_witness :
    ({ game0 with turns_played := 100 } : Game).has_winner = some Player.Defender ∧
    game0.has_winner = none := by
  constructor
  · exact (claim6_has_winner { game0 with turns_played := 100 } 100 (by decide)).1 (by decide)
  · exact ((claim6_has_winner game0 100 (by decide)).2 (by decide)).2.2 (by decide) (by decide)

/-- **C10**: when both AI-presence flags are false and the turn cap is not
reached, `has_winner` reports no winner — a simultaneous loss of both AIs is
not scored for either side. -/
theorem claim10_has_winner_both_gone (g : Game) (cap : Int)
    (hcap : g.options.max_turns = some cap) (ht : g.turns_played < cap)
    (ha : g.attacker_has_ai = false) (hd : g.defender_has_ai = false) :
    g.has_winner = none := by
  unfold Game.has_winner
  rw [hcap]
  have hn : ¬ (g.turns_played ≥ cap) := by omega
  simp [hn, ha, hd]

/-- Witness for C10 on a concrete state with both flags cleared at turn 1. -/
theorem claim10_has_winner_both_gone_witness :
    ({ game0 with attacker_has_ai := false, defender_has_ai := false } : Game).has_winner
      = none :=
  claim10_has_winner_both_gone _ 100 (by decide) (by decide) rfl rfl

/-! ## Claim C8: coordinate parsing -/

/-- **C8 counterexample**: `Coord.from_string "ZZ"` is *not* an absent result
although the column character is not a hex digit 0–f: the source returns the
raw `find` results, here row 25 and column -1. -/
theorem claim8_counterexample :
    Coord.from_string ("ZZ".toList) = some ⟨25, -1⟩ ∧
    colChars.contains 'z' = false := by decide

/-- **C8 (amended)**: `Coord.from_string` returns a coordinate exactly when
the separator-stripped input has two characters — characters outside A–Z/0–f
yield -1 components rather than an absent result; `CoordPair.from_string`
maps "A0 B1" to src=(0,0), dst=(1,1) and "ZZ" (length 2, not 4) to an absent
result. -/
theorem claim8_parsing_amended :
    (∀ s : List Char, Coord.from_string s ≠ none ↔ (cleanInput s).length = 2) ∧
    CoordPair.from_string ("A0 B1".toList) = some ⟨⟨0, 0⟩, ⟨1, 1⟩⟩ ∧
    CoordPair.from_string ("ZZ".toList) = none := by
  refine ⟨?_, by decide, by decide⟩
  intro s
  rcases hs : cleanInput s with _ | ⟨c0, _ | ⟨c1, _ | ⟨c2, rest⟩⟩⟩ <;>
    simp [Coord.from_string, hs]

/-! ## Claim C1: move validation compares units, not coordinates -/

/-- **C1**: evaluation at the failing input. On the initial board the two
attacker Programs sit on distinct cells (2,4) and (4,2); the move between
them is not a legal move and not a repair, and the claim says such a move
(distinct destination, same owner, no repair) must be invalid — yet
`is_valid_move` accepts it, because the source compares the two *units* with
dataclass value equality instead of comparing the coordinates. -/
theorem claim1_is_valid_move_failing_input :
    game0.get ⟨2, 4⟩ = some { player := .Attacker, type := .Program, health := 9 } ∧
    game0.get ⟨4, 2⟩ = some { player := .Attacker, type := .Program, health := 9 } ∧
    game0.next_player = Player.Attacker ∧
    (⟨2, 4⟩ : Coord) ≠ ⟨4, 2⟩ ∧
    game0.is_in_repair ⟨⟨2, 4⟩, ⟨4, 2⟩⟩ = false ∧
    game0.is_legal_move ⟨⟨2, 4⟩, ⟨4, 2⟩⟩ = false ∧
    game0.is_valid_move ⟨⟨2, 4⟩, ⟨4, 2⟩⟩ = true := by decide

/-! ## Claim C2: the cached AI flags go stale after a lethal attack -/

/-- **C2**: evaluation at the failing input. From the initial state the
attacker Virus at (3,4) may attack the defender AI at (0,0) (no adjacency
requirement exists in `is_valid_move`); the attack kills the AI — the board
holds no live defender AI afterwards — but `perform_attack` removes the dead
unit directly with `set`, bypassing `remove_dead`, so `defender_has_ai` is
still true and `has_winner` still reports no winner. -/
theorem claim2_ai_flag_failing_input :
    (game0.perform_move ⟨⟨3, 4⟩, ⟨0, 0⟩⟩).2.1 = true ∧
    (game0.perform_move ⟨⟨3, 4⟩, ⟨0, 0⟩⟩).1.boardHasLiveAI Player.Defender = false ∧
    (game0.perform_move ⟨⟨3, 4⟩, ⟨0, 0⟩⟩).1.defender_has_ai = true ∧
    (game0.perform_move ⟨⟨3, 4⟩, ⟨0, 0⟩⟩).1.has_winner = none := by decide

/-! ## Claim C7: the minimax back-up discards recursive values -/

/-- A concrete 4-level tree exhibiting the divergence: the single root child
`treeC` has two grandchildren whose stored scores (0 and 10) disagree with
their subtrees' backed-up values (5 and 1). -/
def treeMove : CoordPair := ⟨⟨0, 0⟩, ⟨0, 1⟩⟩

/-- Leaf with score 5. -/
def treeLeaf5 : Node := .mk none 5 []

/-- Leaf with score 1. -/
def treeLeaf1 : Node := .mk none 1 []

/-- Grandchild: stored score 0, one leaf child of score 5. -/
def treeG1 : Node := .mk none 0 [treeLeaf5]

/-- Grandchild: stored score 10, one leaf child of score 1. -/
def treeG2 : Node := .mk none 10 [treeLeaf1]

/-- The root's single child. -/
def treeC : Node := .mk (some treeMove) 42 [treeG1, treeG2]

/-- The root of the counterexample tree. -/
def treeRoot : Node := .mk none 0 [treeC]

/-- **C7**: evaluation at the failing input. With a single root child the
random tie-break is immaterial (any permutation of a one-element list is
itself, so `id` stands for `random.shuffle`). The alternating max/min back-up
over the stored scores gives the child the value 1, so the claim requires the
returned score to be 1 — but the source returns 5: its maximizing branch
overwrites `max_eval` with the child's stored score and discards the
recursively computed value, and its minimizing branch guards the update with
the stored score. -/
theorem claim7_minimax_failing_input :
    optimal_move_minimax treeRoot 3 id = some (5, some treeMove) ∧
    backedUpValue treeC 3 false = 1 ∧
    treeRoot.children = [treeC] := by
  refine ⟨?_, ?_, rfl⟩
  · simp [optimal_move_minimax, minimax, minimaxMaxLoop, minimaxMinLoop,
      Node.children, Node.score, Node.coords, MIN_HEURISTIC_SCORE, MAX_HEURISTIC_SCORE,
      treeC, treeG1, treeG2, treeLeaf5, treeLeaf1, treeRoot]
  · simp [backedUpValue, backedUpMax, backedUpMin,
      Node.children, Node.score, MIN_HEURISTIC_SCORE, MAX_HEURISTIC_SCORE,
      treeC, treeG1, treeG2, treeLeaf5, treeLeaf1]

/-! ## Claim C9: a rejected move never mutates the state -/

/-- **C9**: whenever `perform_move` reports failure, the resulting game is the
very state it was given — no board cell, unit health, AI flag, player to move
or turn counter changes. -/
theorem claim9_perform_move_failure_pure (g : Game) (coords : CoordPair) :
    (g.perform_move coords).2.1 = false → (g.perform_move coords).1 = g := by
  unfold Game.perform_move
  rcases hsrc : g.get coords.src with _ | us <;>
    rcases hdst : g.get coords.dst with _ | ud <;>
    simp only [hsrc, hdst] <;>
    repeat' split
  all_goals intro h
  all_goals first | rfl | simp at h

/-- Witness for C9: the Attacker trying to move the Defender's AI at (0,0) is
rejected and the state is returned unchanged. -/
theorem claim9_perform_move_failure_pure_witness :
    (game0.perform_move ⟨⟨0, 0⟩, ⟨0, 1⟩⟩).2.1 = false ∧
    (game0.perform_move ⟨⟨0, 0⟩, ⟨0, 1⟩⟩).1 = game0 :=
  ⟨by decide, claim9_perform_move_failure_pure game0 ⟨⟨0, 0⟩, ⟨0, 1⟩⟩ (by decide)⟩

/-! ## Claim C3: the silent variant applies identical state effects -/

/-- **C3**: for every game state and coordinate pair,
`computer_perform_move` produces exactly the state and success verdict of
`perform_move` on the same input — the two differ only in the text the latter
also returns. -/
theorem claim3_computer_perform_move_agrees (g : Game) (coords : CoordPair) :
    g.computer_perform_move coords = ((g.perform_move coords).1, (g.perform_move coords).2.1) := by
  unfold Game.perform_move Game.computer_perform_move
  rcases hsrc : g.get coords.src with _ | us <;>
    rcases hdst : g.get coords.dst with _ | ud <;>
    simp only [hsrc, hdst] <;>
    repeat' split
  all_goals rfl

/-! ## Claim C4: the attack exchange -/

theorem damage_table_nonneg (a b : UnitType) : 0 ≤ tableLookup damage_table a.value b.value := by
  cases a <;> cases b <;> decide

theorem Unit'.damage_amount_le (u t : Unit') : u.damage_amount t ≤ t.health := by
  by_cases h : t.health - tableLookup damage_table u.type.value t.type.value < 0 <;>
    simp [Unit'.damage_amount, h] <;> omega

theorem Unit'.damage_amount_nonneg (u t : Unit') (ht : 0 ≤ t.health) : 0 ≤ u.damage_amount t := by
  have hnn := damage_table_nonneg u.type t.type
  by_cases h : t.health - tableLookup damage_table u.type.value t.type.value < 0 <;>
    simp [Unit'.damage_amount, h] <;> omega

theorem Unit'.mod_health_sub (a : Unit') (k : Int) (hk0 : 0 ≤ k) (hk : k ≤ a.health)
    (h9 : a.health ≤ 9) : a.mod_health (-k) = { a with health := a.health - k } := by
  obtain ⟨p, t, h⟩ := a
  dsimp only at hk h9
  simp [Unit'.mod_health]
  split_ifs <;> omega

/-- Characterization of `Game.perform_attack` on two distinct occupied cells:
both damage amounts come from the pre-attack units, each cell afterwards
holds its unit with the reduced health — or nothing when the reduced health
is ≤ 0 — and every other cell is untouched. -/
theorem Game.perform_attack_spec (g : Game) (src dst : Coord) (a d : Unit')
    (hs : g.get src = some a) (hd : g.get dst = some d) (hne : src ≠ dst)
    (ha0 : 0 ≤ a.health) (ha9 : a.health ≤ 9) (hd0 : 0 ≤ d.health) (hd9 : d.health ≤ 9) :
    ((g.perform_attack src dst).get src =
      if a.health ≤ d.damage_amount a then none
      else some { a with health := a.health - d.damage_amount a }) ∧
    ((g.perform_attack src dst).get dst =
      if d.health ≤ a.damage_amount d then none
      else some { d with health := d.health - a.damage_amount d }) ∧
    (∀ c : Coord, c ≠ src → c ≠ dst → (g.perform_attack src dst).get c = g.get c) := by
  have hvs : g.is_valid_coord src = true := Game.get_some_valid hs
  have hvd : g.is_valid_coord dst = true := Game.get_some_valid hd
  have hdle : d.damage_amount a ≤ a.health := Unit'.damage_amount_le d a
  have hale : a.damage_amount d ≤ d.health := Unit'.damage_amount_le a d
  have ha1 : a.mod_health (-(d.damage_amount a)) = { a with health := a.health - d.damage_amount a } :=
    Unit'.mod_health_sub a _ (Unit'.damage_amount_nonneg d a ha0) hdle ha9
  have hd1 : d.mod_health (-(a.damage_amount d)) = { d with health := d.health - a.damage_amount d } :=
    Unit'.mod_health_sub d _ (Unit'.damage_amount_nonneg a d hd0) hale hd9
  have hne' : dst ≠ src := fun h => hne h.symm
  have hvset : ∀ (gg : Game) (cc : Coord) (uu : Option Unit') (c2 : Coord),
      (gg.set cc uu).is_valid_coord c2 = gg.is_valid_coord c2 :=
    fun gg cc uu c2 => Game.is_valid_coord_of_options (Game.set_options gg cc uu) c2
  unfold Game.perform_attack
  simp only [hs, hd]
  have e1 : (g.set src (some (a.mod_health (-(d.damage_amount a))))).get dst = some d := by
    rw [Game.get_set_ne _ hne']
    exact hd
  simp only [e1]
  have e2 : ((g.set src (some (a.mod_health (-(d.damage_amount a))))).set dst
      (some (d.mod_health (-(a.damage_amount d))))).get src
      = some (a.mod_health (-(d.damage_amount a))) := by
    rw [Game.get_set_ne _ hne]
    exact Game.get_set_self _ hvs
  simp only [e2]
  have hAh : (a.mod_health (-d.damage_amount a)).health = a.health - d.damage_amount a := by
    rw [ha1]
  have hDh : (d.mod_health (-a.damage_amount d)).health = d.health - a.damage_amount d := by
    rw [hd1]
  have hv1d : (g.set src (some (a.mod_health (-d.damage_amount a)))).is_valid_coord dst = true := by
    simp only [hvset]; exact hvd
  have hv2s : ((g.set src (some (a.mod_health (-d.damage_amount a)))).set dst
      (some (d.mod_health (-a.damage_amount d)))).is_valid_coord src = true := by
    simp only [hvset]; exact hvs
  have hv2d : ((g.set src (some (a.mod_health (-d.damage_amount a)))).set dst
      (some (d.mod_health (-a.damage_amount d)))).is_valid_coord dst = true := by
    simp only [hvset]; exact hvd
  have hv3d : ((((g.set src (some (a.mod_health (-d.damage_amount a)))).set dst
      (some (d.mod_health (-a.damage_amount d)))).set src none)).is_valid_coord dst = true := by
    simp only [hvset]; exact hvd
  simp only [hAh]
  by_cases hA : a.health - d.damage_amount a ≤ 0 <;> by_cases hD : d.health - a.damage_amount d ≤ 0
  · -- both die
    simp only [if_pos hA]
    have e3 : (((g.set src (some (a.mod_health (-d.damage_amount a)))).set dst
        (some (d.mod_health (-a.damage_amount d)))).set src none).get dst
        = some (d.mod_health (-a.damage_amount d)) := by
      rw [Game.get_set_ne _ hne']
      exact Game.get_set_self _ hv1d
    simp only [e3, hDh, if_pos hD]
    refine ⟨?_, ?_, ?_⟩
    · rw [Game.get_set_ne _ hne, Game.get_set_self _ hv2s, if_pos (by omega)]
    · rw [Game.get_set_self _ hv3d, if_pos (by omega)]
    · intro c hcs hcd
      rw [Game.get_set_ne _ hcd, Game.get_set_ne _ hcs, Game.get_set_ne _ hcd,
        Game.get_set_ne _ hcs]
  · -- attacker dies, defender survives
    simp only [if_pos hA]
    have e3 : (((g.set src (some (a.mod_health (-d.damage_amount a)))).set dst
        (some (d.mod_health (-a.damage_amount d)))).set src none).get dst
        = some (d.mod_health (-a.damage_amount d)) := by
      rw [Game.get_set_ne _ hne']
      exact Game.get_set_self _ hv1d
    simp only [e3, hDh, if_neg hD]
    refine ⟨?_, ?_, ?_⟩
    · rw [Game.get_set_self _ hv2s, if_pos (by omega)]
    · rw [if_neg (by omega), hd1]
    · intro c hcs hcd
      rw [Game.get_set_ne _ hcs, Game.get_set_ne _ hcd, Game.get_set_ne _ hcs]
  · -- attacker survives, defender dies
    simp only [if_neg hA]
    have e3 : ((g.set src (some (a.mod_health (-d.damage_amount a)))).set dst
        (some (d.mod_health (-a.damage_amount d)))).get dst
        = some (d.mod_health (-a.damage_amount d)) :=
      Game.get_set_self _ hv1d
    simp only [e3, hDh, if_pos hD]
    refine ⟨?_, ?_, ?_⟩
    · rw [Game.get_set_ne _ hne, e2, if_neg (by omega), ha1]
    · rw [Game.get_set_self _ hv2d, if_pos (by omega)]
    · intro c hcs hcd
      rw [Game.get_set_ne _ hcd, Game.get_set_ne _ hcd, Game.get_set_ne _ hcs]
  · -- both survive
    simp only [if_neg hA]
    have e3 : ((g.set src (some (a.mod_health (-d.damage_amount a)))).set dst
        (some (d.mod_health (-a.damage_amount d)))).get dst
        = some (d.mod_health (-a.damage_amount d)) :=
      Game.get_set_self _ hv1d
    simp only [e3, hDh, if_neg hD]
    refine ⟨?_, ?_, ?_⟩
    · rw [e2, if_neg (by omega), ha1]
    · rw [if_neg (by omega), hd1]
    · intro c hcs hcd
      rw [Game.get_set_ne _ hcd, Game.get_set_ne _ hcs]

/-- Board with two Viruses of health 1 facing each other: Virus-vs-Virus
damage is 1 in each direction, so the exchange kills both. -/
def gattack : Game :=
  { board := fun c =>
      if c = ⟨0, 0⟩ then some { player := .Defender, type := .Virus, health := 1 }
      else if c = ⟨0, 1⟩ then some { player := .Attacker, type := .Virus, health := 1 }
      else none }

/-- **C4**: a valid move onto an enemy unit resolves the simultaneous
bidirectional exchange: each direction's damage is the damage-table entry
capped at the target's *pre-attack* health, both healths are reduced, a unit
whose health reaches 0 is removed, all other cells are untouched — and when
both reductions reach 0 (both `if`s take the `none` branch) both units are
removed. -/
theorem claim4_attack_exchange (g : Game) (mv : CoordPair) (us ud : Unit')
    (hv : g.is_valid_move mv = true)
    (hs : g.get mv.src = some us)
    (hd : g.get mv.dst = some ud)
    (hp : us.player ≠ ud.player)
    (hs0 : 0 ≤ us.health) (hs9 : us.health ≤ 9)
    (hd0 : 0 ≤ ud.health) (hd9 : ud.health ≤ 9) :
    (g.perform_move mv).2.1 = true ∧
    (g.perform_move mv).1.get mv.src =
      (if us.health ≤ ud.damage_amount us then none
       else some { us with health := us.health - ud.damage_amount us }) ∧
    (g.perform_move mv).1.get mv.dst =
      (if ud.health ≤ us.damage_amount ud then none
       else some { ud with health := ud.health - us.damage_amount ud }) ∧
    (∀ c : Coord, c ≠ mv.src → c ≠ mv.dst → (g.perform_move mv).1.get c = g.get c) := by
  have hne : mv.src ≠ mv.dst := by
    intro he
    rw [he, hd] at hs
    exact hp (by injection hs with h; rw [h])
  have hrep : g.is_in_repair mv = false := by
    unfold Game.is_in_repair
    simp only [hs, hd]
    rw [if_neg (fun hc => hp hc.1)]
  have hb : ((decide (us.player = Player.Attacker) && decide (ud.player = Player.Defender))
      || (decide (us.player = Player.Defender) && decide (ud.player = Player.Attacker))) = true := by
    cases hup : us.player <;> cases hudp : ud.player <;> simp_all
  unfold Game.perform_move
  rw [if_pos hv]
  simp only [hs, hd, hrep, Bool.false_eq_true, if_false]
  rw [if_pos hb]
  obtain ⟨c1, c2, c3⟩ :=
    Game.perform_attack_spec g mv.src mv.dst us ud hs hd hne hs0 hs9 hd0 hd9
  exact ⟨rfl, c1, c2, c3⟩

/-- Witness for C4 in the mutual-kill scenario: both units are removed. -/
theorem claim4_attack_exchange_witness :
    (gattack.perform_move ⟨⟨0, 1⟩, ⟨0, 0⟩⟩).2.1 = true ∧
    (gattack.perform_move ⟨⟨0, 1⟩, ⟨0, 0⟩⟩).1.get ⟨0, 1⟩ = none ∧
    (gattack.perform_move ⟨⟨0, 1⟩, ⟨0, 0⟩⟩).1.get ⟨0, 0⟩ = none := by
  obtain ⟨h1, h2, h3, _⟩ :=
    claim4_attack_exchange gattack ⟨⟨0, 1⟩, ⟨0, 0⟩⟩
      { player := .Attacker, type := .Virus, health := 1 }
      { player := .Defender, type := .Virus, health := 1 }
      (by decide) (by decide) (by decide) (by decide)
      (by decide) (by decide) (by decide) (by decide)
  exact ⟨h1, h2.trans (by decide), h3.trans (by decide)⟩

/-! ## Claim C5: self-destruct -/

/-- One of the 8 cells of the Chebyshev ring around `s`. -/
def Coord.chebAdjacent (c s : Coord) : Prop :=
  c ≠ s ∧ |c.row - s.row| ≤ 1 ∧ |c.col - s.col| ≤ 1

instance (c s : Coord) : Decidable (c.chebAdjacent s) := by
  unfold Coord.chebAdjacent
  infer_instance

/-- **C5**: a valid move with `dst = src` destroys the unit at `src` (health
forced to 0 by the −9 delta and the unit removed), each of the 8
Chebyshev-surrounding cells that holds any unit — friend or foe — takes
exactly 2 damage with removal on death, off-board surrounding cells are
silently ignored (the board has no such cells, and execution succeeds for a
unit on the edge or corner), and every cell outside the ring is untouched, so
a self-destruct with no neighbours changes nothing but the unit's own cell.
The health-bound hypothesis is the data model's clamping invariant. -/
theorem claim5_self_destruct (g : Game) (src : Coord) (u : Unit')
    (hs : g.get src = some u)
    (hp : u.player = g.next_player)
    (hb : ∀ c v, g.get c = some v → v.health ≤ 9) :
    (g.perform_move ⟨src, src⟩).2.1 = true ∧
    (g.perform_move ⟨src, src⟩).1.get src = none ∧
    (∀ c v, c.chebAdjacent src → g.get c = some v →
      (g.perform_move ⟨src, src⟩).1.get c =
        (if v.health ≤ 2 then none else some { v with health := v.health - 2 })) ∧
    (∀ c, c.chebAdjacent src → g.get c = none → (g.perform_move ⟨src, src⟩).1.get c = none) ∧
    (∀ c, c ≠ src → ¬ c.chebAdjacent src → (g.perform_move ⟨src, src⟩).1.get c = g.get c) := by
  have hvs : g.is_valid_coord src = true := Game.get_some_valid hs
  have h9 : u.health ≤ 9 := hb src u hs
  have hvm : g.is_valid_move ⟨src, src⟩ = true := by
    unfold Game.is_valid_move
    simp [hvs, hs, hp]
  have hrep : g.is_in_repair ⟨src, src⟩ = false := by
    unfold Game.is_in_repair
    simp [hs]
  have hatk : ((decide (u.player = Player.Attacker) && decide (u.player = Player.Defender))
      || (decide (u.player = Player.Defender) && decide (u.player = Player.Attacker))) = false := by
    cases u.player <;> simp
  have hgk_src : (g.mod_health src (-9)).get src = none := by
    rw [Game.get_mod_health_self, hs]
    simp only [cellAfterMod]
    rw [if_pos (by simp [Unit'.mod_health]; split_ifs <;> omega)]
  have hgk_ne : ∀ c, c ≠ src → (g.mod_health src (-9)).get c = g.get c :=
    fun c hc => Game.get_mod_health_ne _ hc
  have hsrc_not_mem : src ∉ src.surrounding := by
    rw [mem_surrounding_iff]
    simp
  have hgs_src : ((g.mod_health src (-9)).splashAll src).get src = none := by
    rw [Game.splashAll_get_not_mem hsrc_not_mem, hgk_src]
  have hgs_opts : ((g.mod_health src (-9)).splashAll src).options = g.options := by
    unfold Game.splashAll
    rw [foldl_splashStep_options, Game.mod_health_options]
  have hvs_gs : ((g.mod_health src (-9)).splashAll src).is_valid_coord src = true := by
    rw [Game.is_valid_coord_of_options hgs_opts]
    exact hvs
  have hvs_gs2 : (((g.mod_health src (-9)).splashAll src).set src none).is_valid_coord src = true := by
    rw [Game.is_valid_coord_of_options (Game.set_options _ src none)]
    exact hvs_gs
  unfold Game.perform_move
  rw [if_pos hvm]
  simp only [hs, hrep, Bool.false_eq_true, if_false, hatk]
  simp only [if_true]
  simp only [hgs_src]
  refine ⟨trivial, ?_, ?_, ?_, ?_⟩
  · exact Game.get_set_self none hvs_gs2
  · intro c v hadj hcv
    obtain ⟨hne, hrow, hcol⟩ := hadj
    have hmem : c ∈ src.surrounding := (mem_surrounding_iff c src).mpr ⟨hne, hrow, hcol⟩
    rw [Game.get_set_ne _ hne, Game.get_set_ne _ hne,
      Game.splashAll_get_mem hmem, hgk_ne c hne, hcv]
    by_cases hv2 : v.health ≤ 2
    · rw [if_pos hv2]
      simp only [cellAfterMod]
      rw [if_pos (by simp [Unit'.mod_health]; split_ifs <;> omega)]
    · rw [if_neg hv2]
      have hsub := Unit'.mod_health_sub v 2 (by norm_num) (by omega) (hb c v hcv)
      simp only [cellAfterMod, hsub]
      rw [if_neg (by omega)]
  · intro c hadj hcv
    obtain ⟨hne, hrow, hcol⟩ := hadj
    have hmem : c ∈ src.surrounding := (mem_surrounding_iff c src).mpr ⟨hne, hrow, hcol⟩
    rw [Game.get_set_ne _ hne, Game.get_set_ne _ hne,
      Game.splashAll_get_mem hmem, hgk_ne c hne, hcv]
    rfl
  · intro c hne hnadj
    have hnm : c ∉ src.surrounding := by
      rw [mem_surrounding_iff]
      intro hm
      exact hnadj ⟨hm.1, hm.2.1, hm.2.2⟩
    rw [Game.get_set_ne _ hne, Game.get_set_ne _ hne,
      Game.splashAll_get_not_mem hnm, hgk_ne c hne]

/-- Small board for the witness: an attacker Program at (0,0) and a defender
Virus of health 2 diagonally adjacent at (1,1). -/
def gsd : Game :=
  { board := fun c =>
      if c = ⟨0, 0⟩ then some { player := .Attacker, type := .Program, health := 9 }
      else if c = ⟨1, 1⟩ then some { player := .Defender, type := .Virus, health := 2 }
      else none }

/-- Witness for C5: the self-destructing unit is removed, the diagonal
neighbour takes exactly 2 damage and dies, an empty ring cell stays empty and
a faraway cell is untouched. -/
theorem claim5_self_destruct_witness :
    (gsd.perform_move ⟨⟨0, 0⟩, ⟨0, 0⟩⟩).2.1 = true ∧
    (gsd.perform_move ⟨⟨0, 0⟩, ⟨0, 0⟩⟩).1.get ⟨0, 0⟩ = none ∧
    (gsd.perform_move ⟨⟨0, 0⟩, ⟨0, 0⟩⟩).1.get ⟨1, 1⟩ = none ∧
    (gsd.perform_move ⟨⟨0, 0⟩, ⟨0, 0⟩⟩).1.get ⟨0, 1⟩ = none ∧
    (gsd.perform_move ⟨⟨0, 0⟩, ⟨0, 0⟩⟩).1.get ⟨3, 3⟩ = gsd.get ⟨3, 3⟩ := by
  have hb : ∀ c v, gsd.get c = some v → v.health ≤ 9 := by
    intro c v hcv
    simp only [gsd, Game.get] at hcv
    split_ifs at hcv <;>
      first
        | (injection hcv with h; subst h; decide)
        | exact absurd hcv (by simp)
  obtain ⟨h1, h2, h3, h4, h5⟩ :=
    claim5_self_destruct gsd ⟨0, 0⟩ { player := .Attacker, type := .Program, health := 9 }
      (by decide) (by decide) hb
  refine ⟨h1, h2, ?_, ?_, ?_⟩
  · exact (h3 ⟨1, 1⟩ { player := .Defender, type := .Virus, health := 2 }
      (by decide) (by decide)).trans (by decide)
  · exact h4 ⟨0, 1⟩ (by decide) (by decide)
  · exact h5 ⟨3, 3⟩ (by decide) (by decide)

end Wargame
